import Mathlib

/-!
# Polyglot AI Translator: capture session and translation orchestration

A shallow embedding of `src/src/App.jsx`.

* React state (`useState`) and the `finalTranscriptRef` ref become the fields of `AppState`;
  every setter call becomes a record update, in source order.
* The outside world is the structure `Env`: the credential constant `API_KEY`, the built-in
  `JSON.parse`, the outcome of each `fetch` and the value of each `Math.random()` call.
* The effects the program has on the outside world are recorded in `Sys`: the requests issued,
  the back-off waits performed and the invocations of `processText` by the end handler.
* `processText` is embedded twice. `processText` and `onend` run a call to completion, as when
  no other handler runs while the call is suspended. `processTextStart` and `resume` run the
  same code one stretch at a time, from one `await` to the next, so that other handlers may
  run in between (`World`, `Action`); `onend_eq_complete` relates the two.
-/

set_option maxRecDepth 16000

namespace Polyglot

/-! ## JavaScript values -/

mutual
/-- A JavaScript value as produced by `JSON.parse` (plus `undefined`, the value of a missing
property). Numbers are restricted to integers. -/
inductive JsVal where
  | undefined
  | null
  | bool (b : Bool)
  | num (n : Int)
  | str (s : String)
  | arr (items : JsList)
  | obj (fields : JsFields)
  deriving DecidableEq
/-- The elements of a JavaScript array. -/
inductive JsList where
  | nil
  | cons (head : JsVal) (tail : JsList)
  deriving DecidableEq
/-- The own properties of a JavaScript object, keyed by name. -/
inductive JsFields where
  | nil
  | cons (key : String) (value : JsVal) (rest : JsFields)
  deriving DecidableEq
end

/-- Own-property lookup: `none` when the object has no property `key`. -/
def JsFields.lookup : JsFields → String → Option JsVal
  | .nil, _ => none
  | .cons k v rest, key => if k = key then some v else rest.lookup key

/-- JavaScript `ToBoolean`: `undefined`, `null`, `false`, `0` and `""` are falsy, every array
and object is truthy. -/
def JsVal.truthy : JsVal → Bool
  | .undefined => false
  | .null => false
  | .bool b => b
  | .num n => n != 0
  | .str s => s != ""
  | .arr _ => true
  | .obj _ => true

/-- The JavaScript operator `a || b`. -/
def JsVal.orElse (a b : JsVal) : JsVal :=
  if a.truthy then a else b

/-- The property read `v.key` for one of the four field names read by `processText`: `none`
stands for the `TypeError` thrown on `null` and `undefined`; a property that is not there reads
as `undefined`. -/
def JsVal.getProp (v : JsVal) (key : String) : Option JsVal :=
  match v with
  | .undefined => none
  | .null => none
  | .obj fields => some ((fields.lookup key).getD .undefined)
  | _ => some .undefined

/-! ## Constants (App.jsx lines 3-8) -/

/-- The literal `"YOUR_GEMINI_API_KEY_HERE"` that `processText` compares `API_KEY` with. -/
def API_KEY_PLACEHOLDER : String := "YOUR_GEMINI_API_KEY_HERE"

/-- The constant `MAX_RETRIES = 3`. -/
def MAX_RETRIES : Nat := 3

/-! ## State -/

/-- The component state: the eight `useState` cells and the ref `finalTranscriptRef`. -/
structure AppState where
  recording : Bool
  transcript : String
  correctedEnglish : JsVal
  translation : JsVal
  alternatives : JsVal
  culturalNotes : JsVal
  language : String
  message : String
  finalTranscriptRef : String
  deriving DecidableEq

/-- The initial values given to `useState` and `useRef` (lines 12-23). -/
def AppState.initial : AppState where
  recording := false
  transcript := ""
  correctedEnglish := .str ""
  translation := .str ""
  alternatives := .arr .nil
  culturalNotes := .str ""
  language := "es"
  message := ""
  finalTranscriptRef := ""

/-- What `response.json()` and the optional chain of line 171 deliver. -/
inductive Body where
  /-- The call `response.json()` rejects, or evaluating the path throws. -/
  | invalid
  /-- The value of `result.candidates?.[0]?.content?.parts?.[0]?.text?.trim()`;
  `none` is `undefined`. -/
  | text (jsonText : Option String)
  deriving DecidableEq

/-- What one `fetch` call delivers. -/
inductive Outcome where
  /-- The promise returned by `fetch` rejects. -/
  | networkError
  /-- A response with the given HTTP status. -/
  | response (status : Nat) (body : Body)
  deriving DecidableEq

/-- The getter `response.ok`: the status is in the range 200-299. -/
def responseOk (status : Nat) : Bool :=
  decide (200 ≤ status) && decide (status ≤ 299)

/-- The outside world of one run. -/
structure Env where
  /-- The constant `API_KEY` of line 5. -/
  API_KEY : String
  /-- The built-in `JSON.parse`; `none` is a thrown `SyntaxError`. -/
  JSON_parse : String → Option JsVal
  /-- The outcome of the `n`-th `fetch` call of the run, counted from 0. -/
  fetch : Nat → Outcome
  /-- The value of the `n`-th `Math.random()` call of the run, counted from 0. -/
  random : Nat → ℚ

/-- The component state together with the record of its effects. -/
structure Sys where
  app : AppState
  /-- The requests issued so far: for each `fetch` call the utterance sent in its prompt. -/
  requests : List String
  /-- The delays, in milliseconds, of the `setTimeout` waits performed so far. -/
  waits : List ℚ
  /-- The arguments of the invocations of `processText` by the end handler so far. -/
  calls : List String
  deriving DecidableEq

/-- The system before any interaction. -/
def Sys.initial : Sys where
  app := AppState.initial
  requests := []
  waits := []
  calls := []

/-! ## `processText` (lines 103-200) -/

/-- The four values computed by lines 177-180. -/
structure ResultFields where
  correctedEnglish : JsVal
  alternatives : JsVal
  culturalNotes : JsVal
  translation : JsVal
  deriving DecidableEq

/-- The `try` block of lines 159-185 up to the values handed to the setters; `none` stands for
an exception, which control passes to the `catch` block with. The four property reads throw
together (on `null`) and the setters cannot throw, so no setter runs before an exception. -/
def parseAttempt (JSON_parse : String → Option JsVal) (o : Outcome) : Option ResultFields :=
  match o with
  | .networkError => none
  | .response status body =>
    if responseOk status then
      match body with
      | .invalid => none
      | .text none => none
      | .text (some jsonText) =>
        if jsonText ≠ "" then
          match JSON_parse jsonText with
          | none => none
          | some parsedData => do
            let correctedEnglish ← parsedData.getProp "corrected_english"
            let alternatives ← parsedData.getProp "alternative_phrasings"
            let culturalNotes ← parsedData.getProp "tone_and_cultural_notes"
            let translation ← parsedData.getProp "translated_text"
            pure {
              correctedEnglish := correctedEnglish.orElse (.str "Error: Missing corrected text.")
              alternatives := alternatives.orElse (.arr .nil)
              culturalNotes := culturalNotes.orElse (.str "Error: Missing notes.")
              translation := translation.orElse (.str "Error: Missing translation.") }
        else none
    else none

/-- The setter calls of lines 177-181. -/
def commit (r : ResultFields) (s : AppState) : AppState :=
  { s with
    correctedEnglish := r.correctedEnglish
    alternatives := r.alternatives
    culturalNotes := r.culturalNotes
    translation := r.translation
    message := "Analysis and Translation complete." }

/-- The setter calls of lines 191-192. -/
def giveUp (s : AppState) : AppState :=
  { s with
    translation := .str "[AI Error]"
    message := "AI Processing failed after multiple retries. Check console." }

/-- Rounding of a rational to the nearest integer, ties to the even one. -/
def roundHalfEven (y : ℚ) : ℤ :=
  if y - ⌊y⌋ < 1 / 2 then ⌊y⌋
  else if 1 / 2 < y - ⌊y⌋ then ⌊y⌋ + 1
  else if ⌊y⌋ % 2 = 0 then ⌊y⌋
  else ⌊y⌋ + 1

/-- The spacing of the binary64 numbers around `x`: `2 ^ (e - 52)` for `2 ^ e ≤ |x| < 2 ^ (e + 1)`,
and `2 ^ (-1074)` in the subnormal range. -/
def quantum (x : ℚ) : ℚ :=
  (2 : ℚ) ^ max (Int.log 2 |x| - 52) (-1074)

/-- The binary64 number a JavaScript arithmetic operation returns for the exact result `x`:
the nearest multiple of the spacing, ties to even. A JavaScript number is represented by its
exact rational value; overflow to `Infinity` is outside the model (every value computed by
line 196 is far below `2 ^ 1024`). -/
def toDouble (x : ℚ) : ℚ :=
  roundHalfEven (x / quantum x) * quantum x

/-- The delay of line 196, `Math.pow(2, attempt) * 1000 + Math.random() * 500`, for the value
`r` of `Math.random()`: the power of two is exact, the two products and the sum are each
rounded to binary64. -/
def backoffDelay (attempt : Nat) (r : ℚ) : ℚ :=
  toDouble (toDouble ((2 : ℚ) ^ attempt * 1000) + toDouble (r * 500))

/-- The `while` loop of lines 158-199, started with the counter at `attempt`. Each iteration
either returns or increases `attempt`, so `MAX_RETRIES - attempt` iterations are enough; `fuel`
bounds the number of iterations. -/
def retryLoop (env : Env) (text : String) : Nat → Nat → Sys → Sys
  | 0, _, sys => sys
  | fuel + 1, attempt, sys =>
    if attempt < MAX_RETRIES then
      let sent := { sys with requests := sys.requests ++ [text] }
      match parseAttempt env.JSON_parse (env.fetch sys.requests.length) with
      | some r => { sent with app := commit r sys.app }
      | none =>
        let attempt := attempt + 1
        if attempt ≥ MAX_RETRIES then
          { sent with app := giveUp sys.app }
        else
          let delay := backoffDelay attempt (env.random sys.waits.length)
          retryLoop env text fuel attempt { sent with waits := sys.waits ++ [delay] }
    else sys

/-- The function `processText`. -/
def processText (env : Env) (text : String) (sys : Sys) : Sys :=
  if env.API_KEY = API_KEY_PLACEHOLDER ∨ env.API_KEY = "" then
    { sys with app := { sys.app with
        message := "Error: Please set your Gemini API Key in App.jsx."
        translation := .str "[API Key Missing]" } }
  else
    retryLoop env text MAX_RETRIES 0
      { sys with app := { sys.app with
          message := "AI Processing (Structured Gemini API call)..." } }

/-! ## The capture session (lines 38-100) -/

/-- An event delivered to the handlers installed by `startRecording`. -/
inductive SpeechEvent where
  /-- A `result` event; `results` is `event.results`, each result being the list of the
  transcripts of its alternatives. -/
  | result (results : List (List String))
  /-- An `error` event carrying `event.error`. -/
  | error (error : String)
  /-- The `end` event. -/
  | endOfCapture
  deriving DecidableEq

/-- The expression `event.results[event.results.length - 1][0].transcript` of line 69; `none`
stands for the `TypeError` thrown when the list or its last result is empty. -/
def lastTranscript (results : List (List String)) : Option String :=
  match results.getLast? with
  | none => none
  | some alternatives => alternatives.head?

/-- The function `startRecording`; `supported` tells whether the browser offers
`SpeechRecognition`. -/
def startRecording (supported : Bool) (sys : Sys) : Sys :=
  if supported then
    { sys with app := { sys.app with
        transcript := ""
        correctedEnglish := .str ""
        translation := .str ""
        alternatives := .arr .nil
        culturalNotes := .str ""
        message := "Listening..."
        finalTranscriptRef := ""
        recording := true } }
  else
    { sys with app := { sys.app with message := "Error: Speech Recognition not supported." } }

/-- The handler `recognition.onresult` (lines 67-73). -/
def onresult (results : List (List String)) (sys : Sys) : Sys :=
  match lastTranscript results with
  | none => sys
  | some text => { sys with app := { sys.app with finalTranscriptRef := text, transcript := text } }

/-- The handler `recognition.onerror` (lines 76-80). -/
def onerror (error : String) (sys : Sys) : Sys :=
  { sys with app := { sys.app with
      message := "Error: " ++ error ++ ". Try again."
      recording := false } }

/-- The handler `recognition.onend` (lines 83-97). -/
def onend (env : Env) (sys : Sys) : Sys :=
  let app := { sys.app with recording := false, message := "Processing..." }
  let text := app.finalTranscriptRef
  if text ≠ "" then
    processText env text { sys with app := app, calls := sys.calls ++ [text] }
  else
    { sys with app := { app with
        message := "No speech detected or valid result captured."
        transcript := "[No transcription available]" } }

/-- Dispatch of one event to its handler. -/
def step (env : Env) (sys : Sys) (e : SpeechEvent) : Sys :=
  match e with
  | .result results => onresult results sys
  | .error error => onerror error sys
  | .endOfCapture => onend env sys

/-- The handlers run on the events in arrival order. -/
def runEvents (env : Env) (events : List SpeechEvent) (sys : Sys) : Sys :=
  events.foldl (step env) sys

/-! ## The language selector (lines 211-214 and 248-260) -/

/-- The table `languageNames`. -/
def languageNames (code : String) : Option String :=
  if code = "es" then some "Spanish"
  else if code = "fr" then some "French"
  else if code = "de" then some "German"
  else if code = "hi" then some "Hindi"
  else if code = "ja" then some "Japanese"
  else if code = "ko" then some "Korean"
  else none

/-- The codes offered by the selector, the keys of `languageNames`. -/
def languageCodes : List String := ["es", "fr", "de", "hi", "ja", "ko"]

/-- The `onChange` handler of the selector, for `e.target.value = value`. A code without an
entry in `languageNames` is rendered as `undefined` by the template literal. -/
def onLanguageChange (value : String) (sys : Sys) : Sys :=
  { sys with app := { sys.app with
      language := value
      translation := .str ""
      correctedEnglish := .str ""
      alternatives := .arr .nil
      culturalNotes := .str ""
      message := "Language set to " ++ (languageNames value).getD "undefined"
        ++ ". Please record again." } }

/-! ## `processText` one stretch at a time -/

/-- Where a call of `processText` is suspended. -/
inductive Pending where
  /-- At `await fetch(...)` or `await response.json()` of the request with the given number,
  with the counter at `attempt`. -/
  | fetching (request : Nat) (attempt : Nat)
  /-- At `await new Promise(resolve => setTimeout(resolve, delay))`, with the counter at
  `attempt`. -/
  | waiting (attempt : Nat)
  deriving DecidableEq

/-- The head of the `while` loop (lines 158-164): when the condition holds the request is
issued and the call is suspended at `await fetch(...)`. -/
def loopHead (text : String) (attempt : Nat) (sys : Sys) : Sys × Option Pending :=
  if attempt < MAX_RETRIES then
    ({ sys with requests := sys.requests ++ [text] },
      some (.fetching sys.requests.length attempt))
  else (sys, none)

/-- The code of `processText` from its call to its first `await` (lines 103-164). -/
def processTextStart (env : Env) (text : String) (sys : Sys) : Sys × Option Pending :=
  if env.API_KEY = API_KEY_PLACEHOLDER ∨ env.API_KEY = "" then
    ({ sys with app := { sys.app with
        message := "Error: Please set your Gemini API Key in App.jsx."
        translation := .str "[API Key Missing]" } }, none)
  else
    loopHead text 0
      { sys with app := { sys.app with
          message := "AI Processing (Structured Gemini API call)..." } }

/-- The code a suspended call runs, in the state `sys` it finds, when the promise it awaits
settles: from the response to the return or to the back-off wait (lines 166-197), or from the
end of the wait to the next request (lines 158-164). -/
def resume (env : Env) (text : String) (p : Pending) (sys : Sys) : Sys × Option Pending :=
  match p with
  | .fetching request attempt =>
    match parseAttempt env.JSON_parse (env.fetch request) with
    | some r => ({ sys with app := commit r sys.app }, none)
    | none =>
      let attempt := attempt + 1
      if attempt ≥ MAX_RETRIES then
        ({ sys with app := giveUp sys.app }, none)
      else
        let delay := backoffDelay attempt (env.random sys.waits.length)
        ({ sys with waits := sys.waits ++ [delay] }, some (.waiting attempt))
  | .waiting attempt => loopHead text attempt sys

/-- A call run to its end with no other handler in between; `fuel` bounds the number of
stretches, of which a call has at most `2 * MAX_RETRIES`. -/
def complete (env : Env) (text : String) : Nat → Sys × Option Pending → Sys
  | _, (sys, none) => sys
  | 0, (sys, some _) => sys
  | fuel + 1, (sys, some p) => complete env text fuel (resume env text p sys)

/-- The handler `recognition.onend` up to the first `await` of the call of `processText`. -/
def onendStart (env : Env) (sys : Sys) : Sys × Option (String × Pending) :=
  let app := { sys.app with recording := false, message := "Processing..." }
  let text := app.finalTranscriptRef
  if text ≠ "" then
    match processTextStart env text { sys with app := app, calls := sys.calls ++ [text] } with
    | (out, none) => (out, none)
    | (out, some p) => (out, some (text, p))
  else
    ({ sys with app := { app with
        message := "No speech detected or valid result captured."
        transcript := "[No transcription available]" } }, none)

/-- The method `String.prototype.includes`. -/
def includes (s sub : String) : Bool :=
  s.data.tails.any (fun t => sub.data.isPrefixOf t)

/-- The attribute `disabled` of the Record button (line 226). -/
def recordDisabled (s : AppState) : Bool :=
  includes s.message "Error" && !s.recording

/-- The function `toggleRecording` (lines 26-35); the `end` event that `stop()` causes is
delivered later, as an event of its own. -/
def toggleRecording (supported : Bool) (sys : Sys) : Sys :=
  if sys.app.recording then
    { sys with app := { sys.app with recording := false } }
  else startRecording supported sys

/-- The component together with the calls of `processText` that are suspended, each with its
argument. -/
structure World where
  sys : Sys
  pending : List (String × Pending)
  deriving DecidableEq

/-- What can happen next. -/
inductive Action where
  /-- A click on the Record button, in a browser that offers `SpeechRecognition`. -/
  | clickRecord
  /-- An event is delivered to the handlers installed by `startRecording`. -/
  | speech (e : SpeechEvent)
  /-- The promise awaited by the `i`-th suspended call settles. -/
  | settle (i : Nat)
  deriving DecidableEq

/-- One action, run up to the next `await`. -/
def World.step (env : Env) (w : World) (a : Action) : World :=
  match a with
  | .clickRecord =>
    if recordDisabled w.sys.app then w else { w with sys := toggleRecording true w.sys }
  | .speech (.result results) => { w with sys := onresult results w.sys }
  | .speech (.error error) => { w with sys := onerror error w.sys }
  | .speech .endOfCapture =>
    match onendStart env w.sys with
    | (out, none) => { w with sys := out }
    | (out, some call) => { sys := out, pending := w.pending ++ [call] }
  | .settle i =>
    match w.pending[i]? with
    | none => w
    | some (text, p) =>
      match resume env text p w.sys with
      | (out, none) => { sys := out, pending := w.pending.eraseIdx i }
      | (out, some q) => { sys := out, pending := w.pending.set i (text, q) }

/-- The actions run in order. -/
def World.run (env : Env) (actions : List Action) (w : World) : World :=
  actions.foldl (World.step env) w

/-- The world before any interaction. -/
def World.initial : World where
  sys := Sys.initial
  pending := []

/-! ## Sample data -/

/-- A well-formed answer of the model with all four fields. -/
def fullText : String :=
  "\x7b\"corrected_english\":\"I went home.\",\"alternative_phrasings\":[\"I returned home.\",\"I got home.\"],\"tone_and_cultural_notes\":\"Neutral.\",\"translated_text\":\"Fui a casa.\"\x7d"

/-- The value `JSON.parse` gives for `fullText`. -/
def fullPayload : JsVal :=
  .obj (.cons "corrected_english" (.str "I went home.")
    (.cons "alternative_phrasings"
      (.arr (.cons (.str "I returned home.") (.cons (.str "I got home.") .nil)))
    (.cons "tone_and_cultural_notes" (.str "Neutral.")
    (.cons "translated_text" (.str "Fui a casa.") .nil))))

/-- An answer that omits `tone_and_cultural_notes`. -/
def noToneText : String :=
  "\x7b\"corrected_english\":\"Good morning.\",\"alternative_phrasings\":[\"Morning!\"],\"translated_text\":\"Buenos dias.\"\x7d"

/-- The value `JSON.parse` gives for `noToneText`. -/
def noTonePayload : JsVal :=
  .obj (.cons "corrected_english" (.str "Good morning.")
    (.cons "alternative_phrasings" (.arr (.cons (.str "Morning!") .nil))
    (.cons "translated_text" (.str "Buenos dias.") .nil)))

/-- An answer whose `corrected_english` is present and is the empty string. -/
def emptyFieldText : String :=
  "\x7b\"corrected_english\":\"\",\"alternative_phrasings\":[],\"tone_and_cultural_notes\":\"Nothing to correct.\",\"translated_text\":\"Hola.\"\x7d"

/-- The value `JSON.parse` gives for `emptyFieldText`. -/
def emptyFieldPayload : JsVal :=
  .obj (.cons "corrected_english" (.str "")
    (.cons "alternative_phrasings" (.arr .nil)
    (.cons "tone_and_cultural_notes" (.str "Nothing to correct.")
    (.cons "translated_text" (.str "Hola.") .nil))))

/-- The built-in `JSON.parse` on the sample texts; every other text used below (`""`,
`"<html>"`) is not JSON and makes it throw. -/
def sampleParse (text : String) : Option JsVal :=
  if text = fullText then some fullPayload
  else if text = noToneText then some noTonePayload
  else if text = emptyFieldText then some emptyFieldPayload
  else none

/-- A world with a configured credential, the given `fetch` outcomes and `Math.random()`
always returning `1/4`. -/
def sampleEnv (fetch : Nat → Outcome) : Env where
  API_KEY := "sample-key"
  JSON_parse := sampleParse
  fetch := fetch
  random := fun _ => 1 / 4

/-- A world like `sampleEnv` in which `Math.random()` always returns `1 - 2^-52`, a binary64
number below 1. -/
def nearOneEnv (fetch : Nat → Outcome) : Env where
  API_KEY := "sample-key"
  JSON_parse := sampleParse
  fetch := fetch
  random := fun _ => 1 - 1 / 2 ^ 52

/-- The world of the source as committed: `API_KEY` is still the placeholder. -/
def sourceEnv : Env where
  API_KEY := "YOUR_GEMINI_API_KEY_HERE"
  JSON_parse := sampleParse
  fetch := fun _ => .networkError
  random := fun _ => 0

/-- Every request is answered with status 200 and the text `jsonText`. -/
def alwaysText (jsonText : String) : Nat → Outcome :=
  fun _ => .response 200 (.text (some jsonText))

/-- HTTP 500 on the first two requests, then the full answer. -/
def twoErrorsThenFull : Nat → Outcome :=
  fun n => if n < 2 then .response 500 .invalid else .response 200 (.text (some fullText))

/-- The full answer on the first request, a network error on every later one. -/
def fullThenDown : Nat → Outcome :=
  fun n => if n = 0 then .response 200 (.text (some fullText)) else .networkError

/-- A second session begun while the call of the first one is still suspended: session A
(`"hello"`) ends and its request is pending; Record is clicked and session B starts; the answer
to A arrives; session B (`"again"`) ends and its call runs. -/
def lateAnswer : List Action :=
  [.clickRecord, .speech (.result [["hello"]]), .speech .endOfCapture,
    .clickRecord, .settle 0,
    .speech (.result [["again"]]), .speech .endOfCapture,
    .settle 0, .settle 0, .settle 0, .settle 0]

/-! ## Vocabulary of the statements -/

/-- The credential is configured: `API_KEY` is neither the placeholder nor empty, so the guard
of line 105 is passed. -/
def Env.configured (env : Env) : Prop :=
  env.API_KEY ≠ API_KEY_PLACEHOLDER ∧ env.API_KEY ≠ ""

instance (env : Env) : Decidable env.configured :=
  inferInstanceAs (Decidable (env.API_KEY ≠ API_KEY_PLACEHOLDER ∧ env.API_KEY ≠ ""))

/-- What the `try` block makes of the `n`-th request of the run: `some r` is a success with
the values `r` for the setters, `none` a failure caught by the `catch` block. -/
def Env.attempt (env : Env) (n : Nat) : Option ResultFields :=
  parseAttempt env.JSON_parse (env.fetch n)

/-- The state after line 112. -/
def processing (s : AppState) : AppState :=
  { s with message := "AI Processing (Structured Gemini API call)..." }

/-- The delays of the first `k` back-off waits of one call of `processText` that starts when
`done` waits have been performed. -/
def backoffWaits (env : Env) (done k : Nat) : List ℚ :=
  (List.range k).map (fun i => backoffDelay (i + 1) (env.random (done + i)))

/-- How lines 177-180 fill one result cell from the parsed object `fields`: the value of the
property `key` when it is there and truthy, the `placeholder` when it is there and falsy, and
the `placeholder` when it is missing. -/
def fieldRule (fields : JsFields) (key : String) (placeholder result : JsVal) : Prop :=
  (∀ v, fields.lookup key = some v → v.truthy = true → result = v) ∧
  (∀ v, fields.lookup key = some v → v.truthy = false → result = placeholder) ∧
  (fields.lookup key = none → result = placeholder)

/-- Whether an event is an `error` event. -/
def SpeechEvent.isError : SpeechEvent → Bool
  | .error _ => true
  | _ => false

/-- The candidate utterance after `events`, starting from the candidate `c`: only `result`
events that carry a transcript change it. -/
def candidateAfter (c : String) : List SpeechEvent → String
  | [] => c
  | .result results :: rest => candidateAfter ((lastTranscript results).getD c) rest
  | _ :: rest => candidateAfter c rest

/-! ## The retry loop -/

theorem processText_of_not_configured (env : Env) (text : String) (sys : Sys)
    (h : ¬ env.configured) :
    processText env text sys =
      { sys with app := { sys.app with
          message := "Error: Please set your Gemini API Key in App.jsx."
          translation := .str "[API Key Missing]" } } := by
  unfold processText
  have : env.API_KEY = API_KEY_PLACEHOLDER ∨ env.API_KEY = "" := by
    unfold Env.configured at h
    by_contra hn
    exact h ⟨fun a => hn (Or.inl a), fun a => hn (Or.inr a)⟩
  rw [if_pos this]

theorem processText_of_configured (env : Env) (text : String) (sys : Sys)
    (h : env.configured) :
    processText env text sys =
      retryLoop env text MAX_RETRIES 0 { sys with app := processing sys.app } := by
  unfold processText processing
  have : ¬ (env.API_KEY = API_KEY_PLACEHOLDER ∨ env.API_KEY = "") := by
    rintro (a | a)
    · exact h.1 a
    · exact h.2 a
  rw [if_neg this]

/-- A call whose first `k < MAX_RETRIES` requests fail and whose next request succeeds. -/
theorem processText_success (env : Env) (text : String) (sys : Sys) (k : Nat)
    (r : ResultFields) (hc : env.configured) (hk : k < MAX_RETRIES)
    (hfail : ∀ i, i < k → env.attempt (sys.requests.length + i) = none)
    (hsucc : env.attempt (sys.requests.length + k) = some r) :
    processText env text sys =
      { app := commit r (processing sys.app)
        requests := sys.requests ++ List.replicate (k + 1) text
        waits := sys.waits ++ backoffWaits env sys.waits.length k
        calls := sys.calls } := by
  rw [processText_of_configured env text sys hc]
  unfold MAX_RETRIES at hk
  unfold Env.attempt at hfail hsucc
  interval_cases k
  · simp at hsucc
    simp [retryLoop, MAX_RETRIES, hsucc, backoffWaits]
  · have h0 := hfail 0 (by omega)
    simp at h0 hsucc
    simp [retryLoop, MAX_RETRIES, h0, hsucc, backoffWaits, List.range_succ]
  · have h0 := hfail 0 (by omega)
    have h1 := hfail 1 (by omega)
    simp at h0 h1 hsucc
    simp [retryLoop, MAX_RETRIES, h0, h1, hsucc, backoffWaits, List.range_succ, List.replicate_succ]

/-- A call whose first `MAX_RETRIES` requests all fail. -/
theorem processText_exhausted (env : Env) (text : String) (sys : Sys)
    (hc : env.configured)
    (hfail : ∀ i, i < MAX_RETRIES → env.attempt (sys.requests.length + i) = none) :
    processText env text sys =
      { app := giveUp (processing sys.app)
        requests := sys.requests ++ List.replicate MAX_RETRIES text
        waits := sys.waits ++ backoffWaits env sys.waits.length (MAX_RETRIES - 1)
        calls := sys.calls } := by
  rw [processText_of_configured env text sys hc]
  unfold Env.attempt at hfail
  have h0 := hfail 0 (by decide)
  have h1 := hfail 1 (by decide)
  have h2 := hfail 2 (by decide)
  simp at h0 h1 h2
  simp [retryLoop, MAX_RETRIES, h0, h1, h2, backoffWaits, List.range_succ, List.replicate_succ]

/-- More fuel than `MAX_RETRIES - attempt` does not change what the loop returns: the bound on
the number of iterations never cuts the loop short. -/
theorem retryLoop_fuel (env : Env) (text : String) (fuel attempt : Nat) (sys : Sys)
    (h : MAX_RETRIES - attempt ≤ fuel) :
    retryLoop env text fuel attempt sys =
      retryLoop env text (MAX_RETRIES - attempt) attempt sys := by
  induction fuel generalizing attempt sys with
  | zero =>
    have h0 : MAX_RETRIES - attempt = 0 := by omega
    rw [h0]
  | succ fuel ih =>
    by_cases hlt : attempt < MAX_RETRIES
    · obtain ⟨m, hm⟩ : ∃ m, MAX_RETRIES - attempt = m + 1 := ⟨MAX_RETRIES - attempt - 1, by omega⟩
      rw [hm]
      simp only [retryLoop, if_pos hlt]
      cases parseAttempt env.JSON_parse (env.fetch sys.requests.length) with
      | some r => rfl
      | none =>
        simp only
        by_cases hge : attempt + 1 ≥ MAX_RETRIES
        · simp only [if_pos hge]
        · simp only [if_neg hge]
          have hm1 : m = MAX_RETRIES - (attempt + 1) := by omega
          rw [ih (attempt + 1) _ (by omega), hm1]
    · have h0 : MAX_RETRIES - attempt = 0 := by omega
      rw [h0]
      simp only [retryLoop, if_neg hlt]

/-- The loop touches neither the session fields nor the record of invocations. -/
theorem retryLoop_frame (env : Env) (text : String) (fuel attempt : Nat) (sys : Sys) :
    (retryLoop env text fuel attempt sys).calls = sys.calls ∧
    (retryLoop env text fuel attempt sys).app.recording = sys.app.recording ∧
    (retryLoop env text fuel attempt sys).app.finalTranscriptRef = sys.app.finalTranscriptRef ∧
    (retryLoop env text fuel attempt sys).app.transcript = sys.app.transcript ∧
    (retryLoop env text fuel attempt sys).app.language = sys.app.language := by
  induction fuel generalizing attempt sys with
  | zero => simp [retryLoop]
  | succ fuel ih =>
    simp only [retryLoop]
    split
    · split
      · simp [commit]
      · split
        · simp [giveUp]
        · have := ih (attempt + 1)
            { sys with
              requests := sys.requests ++ [text]
              waits := sys.waits ++ [backoffDelay (attempt + 1) (env.random sys.waits.length)] }
          simpa using this
    · simp

/-- The function `processText` touches neither the session fields nor the record of
invocations. -/
theorem processText_frame (env : Env) (text : String) (sys : Sys) :
    (processText env text sys).calls = sys.calls ∧
    (processText env text sys).app.recording = sys.app.recording ∧
    (processText env text sys).app.finalTranscriptRef = sys.app.finalTranscriptRef ∧
    (processText env text sys).app.transcript = sys.app.transcript ∧
    (processText env text sys).app.language = sys.app.language := by
  unfold processText
  split
  · simp
  · have := retryLoop_frame env text MAX_RETRIES 0
      { sys with app := { sys.app with
          message := "AI Processing (Structured Gemini API call)..." } }
    simpa using this

/-- Either one of the first `MAX_RETRIES` requests is the first to succeed, or all of them
fail. -/
theorem attempt_cases (env : Env) (n : Nat) :
    (∃ k r, k < MAX_RETRIES ∧ (∀ i, i < k → env.attempt (n + i) = none) ∧
      env.attempt (n + k) = some r) ∨
    (∀ i, i < MAX_RETRIES → env.attempt (n + i) = none) := by
  unfold MAX_RETRIES
  cases h0 : env.attempt (n + 0) with
  | some r => exact Or.inl ⟨0, r, by omega, fun i hi => absurd hi (by omega), h0⟩
  | none =>
    cases h1 : env.attempt (n + 1) with
    | some r =>
      refine Or.inl ⟨1, r, by omega, fun i hi => ?_, h1⟩
      have : i = 0 := by omega
      subst this; exact h0
    | none =>
      cases h2 : env.attempt (n + 2) with
      | some r =>
        refine Or.inl ⟨2, r, by omega, fun i hi => ?_, h2⟩
        have : i = 0 ∨ i = 1 := by omega
        rcases this with rfl | rfl
        · exact h0
        · exact h1
      | none =>
        refine Or.inr fun i hi => ?_
        have : i = 0 ∨ i = 1 ∨ i = 2 := by omega
        rcases this with rfl | rfl | rfl
        · exact h0
        · exact h1
        · exact h2

/-! ## C1: bounded retries -/

/-- C1: called with a configured credential, `processText` issues at most `MAX_RETRIES = 3`
requests. If the first success among the first three outcomes is the one of request `k`, the
call issues exactly `k + 1` requests and the four result fields and the message are those of
that success. If the first three outcomes are failures, the call issues exactly three requests
and ends with translation `"[AI Error]"` and the retry-failure message. Two worlds that agree
on the first three outcomes give the same state and the same requests. -/
theorem processText_retry_contract (env : Env) (text : String) (sys : Sys)
    (hc : env.configured) :
    (processText env text sys).requests.length ≤ sys.requests.length + MAX_RETRIES ∧
    (∀ k r, k < MAX_RETRIES →
      (∀ i, i < k → env.attempt (sys.requests.length + i) = none) →
      env.attempt (sys.requests.length + k) = some r →
      (processText env text sys).requests = sys.requests ++ List.replicate (k + 1) text ∧
      (processText env text sys).app.correctedEnglish = r.correctedEnglish ∧
      (processText env text sys).app.alternatives = r.alternatives ∧
      (processText env text sys).app.culturalNotes = r.culturalNotes ∧
      (processText env text sys).app.translation = r.translation ∧
      (processText env text sys).app.message = "Analysis and Translation complete.") ∧
    ((∀ i, i < MAX_RETRIES → env.attempt (sys.requests.length + i) = none) →
      (processText env text sys).requests = sys.requests ++ List.replicate MAX_RETRIES text ∧
      (processText env text sys).app.translation = .str "[AI Error]" ∧
      (processText env text sys).app.message =
        "AI Processing failed after multiple retries. Check console.") ∧
    (∀ other : Env, other.configured →
      (∀ i, i < MAX_RETRIES →
        other.attempt (sys.requests.length + i) = env.attempt (sys.requests.length + i)) →
      (processText other text sys).app = (processText env text sys).app ∧
      (processText other text sys).requests = (processText env text sys).requests) := by
  refine ⟨?_, ?_, ?_, ?_⟩
  · rcases attempt_cases env sys.requests.length with ⟨k, r, hk, hfail, hsucc⟩ | hfail
    · rw [processText_success env text sys k r hc hk hfail hsucc]
      simp only [List.length_append, List.length_replicate]
      omega
    · rw [processText_exhausted env text sys hc hfail]
      simp only [List.length_append, List.length_replicate]
      omega
  · intro k r hk hfail hsucc
    rw [processText_success env text sys k r hc hk hfail hsucc]
    simp [commit]
  · intro hfail
    rw [processText_exhausted env text sys hc hfail]
    simp [giveUp]
  · intro other hoc hagree
    rcases attempt_cases env sys.requests.length with ⟨k, r, hk, hfail, hsucc⟩ | hfail
    · have hfail2 : ∀ i, i < k → other.attempt (sys.requests.length + i) = none := by
        intro i hi
        rw [hagree i (by omega)]
        exact hfail i hi
      have hsucc2 : other.attempt (sys.requests.length + k) = some r := by
        rw [hagree k hk]
        exact hsucc
      rw [processText_success env text sys k r hc hk hfail hsucc,
        processText_success other text sys k r hoc hk hfail2 hsucc2]
      exact ⟨rfl, rfl⟩
    · have hfail2 : ∀ i, i < MAX_RETRIES → other.attempt (sys.requests.length + i) = none := by
        intro i hi
        rw [hagree i hi]
        exact hfail i hi
      rw [processText_exhausted env text sys hc hfail,
        processText_exhausted other text sys hoc hfail2]
      exact ⟨rfl, rfl⟩

/-- The C1 contract at the scenario "HTTP 500 twice, then a full answer": three requests, the
translation of the answer. -/
theorem processText_retry_contract_witness :
    (sampleEnv twoErrorsThenFull).configured ∧
    (processText (sampleEnv twoErrorsThenFull) "i go home" Sys.initial).requests.length
      ≤ Sys.initial.requests.length + MAX_RETRIES ∧
    (processText (sampleEnv twoErrorsThenFull) "i go home" Sys.initial).requests =
      Sys.initial.requests ++ List.replicate (2 + 1) "i go home" ∧
    (processText (sampleEnv twoErrorsThenFull) "i go home" Sys.initial).app.translation =
      .str "Fui a casa." :=
  have h := processText_retry_contract (sampleEnv twoErrorsThenFull) "i go home" Sys.initial
    (by decide)
  have h2 := h.2.1 2
    { correctedEnglish := .str "I went home."
      alternatives := .arr (.cons (.str "I returned home.") (.cons (.str "I got home.") .nil))
      culturalNotes := .str "Neutral."
      translation := .str "Fui a casa." }
    (by decide) (by decide) (by decide)
  ⟨by decide, h.1, h2.1, h2.2.2.2.2.1⟩

/-! ## C2: number of requests -/

/-- C2, refuted as stated: with `k = 0` failures before the success (the first request
succeeds) the loop issues one request, not `min 0 MAX_RETRIES = 0`. -/
theorem requests_not_min_failures :
    (sampleEnv (alwaysText fullText)).configured ∧
    (∀ i, i < 0 →
      (sampleEnv (alwaysText fullText)).attempt (Sys.initial.requests.length + i) = none) ∧
    ((sampleEnv (alwaysText fullText)).attempt (Sys.initial.requests.length + 0)).isSome
      = true ∧
    (processText (sampleEnv (alwaysText fullText)) "hello" Sys.initial).requests = ["hello"] ∧
    (processText (sampleEnv (alwaysText fullText)) "hello" Sys.initial).requests.length ≠
      Sys.initial.requests.length + min 0 MAX_RETRIES := by
  decide

/-- C2, amended: when the first `k` requests of a call fail and, if `k < MAX_RETRIES`, the next
one succeeds, `processText` issues exactly `min (k + 1) MAX_RETRIES` requests: the failing ones
and the successful one, capped at `MAX_RETRIES`. -/
theorem processText_request_count (env : Env) (text : String) (sys : Sys) (k : Nat)
    (hc : env.configured)
    (hfail : ∀ i, i < k → env.attempt (sys.requests.length + i) = none)
    (hsucc : k < MAX_RETRIES → (env.attempt (sys.requests.length + k)).isSome = true) :
    (processText env text sys).requests =
      sys.requests ++ List.replicate (min (k + 1) MAX_RETRIES) text ∧
    (processText env text sys).requests.length =
      sys.requests.length + min (k + 1) MAX_RETRIES := by
  have key : (processText env text sys).requests =
      sys.requests ++ List.replicate (min (k + 1) MAX_RETRIES) text := by
    by_cases hk : k < MAX_RETRIES
    · obtain ⟨r, hr⟩ := Option.isSome_iff_exists.mp (hsucc hk)
      rw [processText_success env text sys k r hc hk hfail hr]
      have : min (k + 1) MAX_RETRIES = k + 1 := by omega
      rw [this]
    · rw [processText_exhausted env text sys hc (fun i hi => hfail i (by omega))]
      have : min (k + 1) MAX_RETRIES = MAX_RETRIES := by omega
      rw [this]
  refine ⟨key, ?_⟩
  rw [key]
  simp only [List.length_append, List.length_replicate]

/-- The amended C2 at "HTTP 500 twice, then a full answer": `k = 2`, three requests. -/
theorem processText_request_count_witness :
    (sampleEnv twoErrorsThenFull).configured ∧
    (processText (sampleEnv twoErrorsThenFull) "i go home" Sys.initial).requests.length =
      Sys.initial.requests.length + min (2 + 1) MAX_RETRIES :=
  ⟨by decide,
    (processText_request_count (sampleEnv twoErrorsThenFull) "i go home" Sys.initial 2
      (by decide) (by decide) (by decide)).2⟩

/-! ## C3: a structured answer is accepted at once -/

/-- C3, refuted as stated: in the answer `emptyFieldText` the field `corrected_english` is
present, with the value `""`, and `processText` does not store that value but the placeholder
`"Error: Missing corrected text."`. -/
theorem present_empty_field_replaced :
    (sampleEnv (alwaysText emptyFieldText)).configured ∧
    (sampleEnv (alwaysText emptyFieldText)).JSON_parse emptyFieldText =
      some emptyFieldPayload ∧
    emptyFieldPayload.getProp "corrected_english" = some (.str "") ∧
    (processText (sampleEnv (alwaysText emptyFieldText)) "hello" Sys.initial).app.correctedEnglish
      = .str "Error: Missing corrected text." ∧
    (processText (sampleEnv (alwaysText emptyFieldText)) "hello" Sys.initial).app.correctedEnglish
      ≠ .str "" := by
  decide

/-- C3, amended: when the text payload of a response with an OK status parses to a JSON
object, `processText` succeeds on that attempt, with one request and no back-off wait, sets the
message to `"Analysis and Translation complete."` and fills each result field by `fieldRule`:
the value of the payload when the field is present and truthy, the field-specific placeholder
when the field is missing or present with a falsy value (`""`, `0`, `false`, `null`). -/
theorem structured_answer_accepted (env : Env) (text : String) (sys : Sys) (status : Nat)
    (jsonText : String) (fields : JsFields)
    (hc : env.configured)
    (hlaw : env.JSON_parse "" = none)
    (hok : responseOk status = true)
    (hfetch : env.fetch sys.requests.length = .response status (.text (some jsonText)))
    (hparse : env.JSON_parse jsonText = some (.obj fields)) :
    (processText env text sys).requests = sys.requests ++ [text] ∧
    (processText env text sys).waits = sys.waits ∧
    (processText env text sys).app.message = "Analysis and Translation complete." ∧
    fieldRule fields "corrected_english" (.str "Error: Missing corrected text.")
      (processText env text sys).app.correctedEnglish ∧
    fieldRule fields "alternative_phrasings" (.arr .nil)
      (processText env text sys).app.alternatives ∧
    fieldRule fields "tone_and_cultural_notes" (.str "Error: Missing notes.")
      (processText env text sys).app.culturalNotes ∧
    fieldRule fields "translated_text" (.str "Error: Missing translation.")
      (processText env text sys).app.translation := by
  have hne : jsonText ≠ "" := by
    rintro rfl
    rw [hlaw] at hparse
    cases hparse
  have hatt : env.attempt (sys.requests.length + 0) = some
      { correctedEnglish := (((fields.lookup "corrected_english").getD .undefined).orElse
          (.str "Error: Missing corrected text."))
        alternatives := (((fields.lookup "alternative_phrasings").getD .undefined).orElse
          (.arr .nil))
        culturalNotes := (((fields.lookup "tone_and_cultural_notes").getD .undefined).orElse
          (.str "Error: Missing notes."))
        translation := (((fields.lookup "translated_text").getD .undefined).orElse
          (.str "Error: Missing translation.")) } := by
    simp [Env.attempt, parseAttempt, hfetch, hok, hne, hparse, JsVal.getProp]
  have hrule : ∀ key placeholder,
      fieldRule fields key placeholder
        (((fields.lookup key).getD .undefined).orElse placeholder) := by
    intro key placeholder
    refine ⟨?_, ?_, ?_⟩
    · intro v hv ht
      simp [hv, JsVal.orElse, ht]
    · intro v hv ht
      simp [hv, JsVal.orElse, ht]
    · intro hv
      simp [hv, JsVal.orElse, JsVal.truthy]
  rw [processText_success env text sys 0 _ hc (by decide) (fun i hi => absurd hi (by omega)) hatt]
  refine ⟨by simp, by simp [backoffWaits], by simp [commit], ?_, ?_, ?_, ?_⟩
  · exact hrule _ _
  · exact hrule _ _
  · exact hrule _ _
  · exact hrule _ _

/-- The amended C3 at the scenario "the answer omits `tone_and_cultural_notes`": one request,
no wait, the three given values and the placeholder for the notes. -/
theorem structured_answer_accepted_witness :
    (sampleEnv (alwaysText noToneText)).configured ∧
    (sampleEnv (alwaysText noToneText)).JSON_parse "" = none ∧
    responseOk 200 = true ∧
    (processText (sampleEnv (alwaysText noToneText)) "good morning" Sys.initial).requests =
      Sys.initial.requests ++ ["good morning"] ∧
    (processText (sampleEnv (alwaysText noToneText)) "good morning" Sys.initial).waits =
      Sys.initial.waits ∧
    (processText (sampleEnv (alwaysText noToneText)) "good morning" Sys.initial).app.message =
      "Analysis and Translation complete." ∧
    (processText (sampleEnv (alwaysText noToneText)) "good morning"
      Sys.initial).app.correctedEnglish = .str "Good morning." ∧
    (processText (sampleEnv (alwaysText noToneText)) "good morning"
      Sys.initial).app.alternatives = .arr (.cons (.str "Morning!") .nil) ∧
    (processText (sampleEnv (alwaysText noToneText)) "good morning"
      Sys.initial).app.translation = .str "Buenos dias." ∧
    (processText (sampleEnv (alwaysText noToneText)) "good morning"
      Sys.initial).app.culturalNotes = .str "Error: Missing notes." :=
  have h := structured_answer_accepted (sampleEnv (alwaysText noToneText)) "good morning"
    Sys.initial 200 noToneText
    (.cons "corrected_english" (.str "Good morning.")
      (.cons "alternative_phrasings" (.arr (.cons (.str "Morning!") .nil))
      (.cons "translated_text" (.str "Buenos dias.") .nil)))
    (by decide) (by decide) (by decide) (by decide) (by decide)
  ⟨by decide, by decide, by decide, h.1, h.2.1, h.2.2.1,
    h.2.2.2.1.1 _ (by decide) (by decide),
    h.2.2.2.2.1.1 _ (by decide) (by decide),
    h.2.2.2.2.2.2.1 _ (by decide) (by decide),
    h.2.2.2.2.2.1.2.2 (by decide)⟩

/-! ## C4: missing credential -/

/-- C4: when `API_KEY` is empty or still the placeholder `"YOUR_GEMINI_API_KEY_HERE"`,
`processText` returns at once for every source text: no request is issued and no wait is
performed, translation becomes `"[API Key Missing]"`, the message becomes
`"Error: Please set your Gemini API Key in App.jsx."`, and `correctedEnglish`, `alternatives`,
`culturalNotes` and every other cell are left as they were. -/
theorem processText_missing_key (env : Env) (text : String) (sys : Sys)
    (h : env.API_KEY = "" ∨ env.API_KEY = "YOUR_GEMINI_API_KEY_HERE") :
    (processText env text sys).requests = sys.requests ∧
    (processText env text sys).waits = sys.waits ∧
    (processText env text sys).app.translation = .str "[API Key Missing]" ∧
    (processText env text sys).app.message =
      "Error: Please set your Gemini API Key in App.jsx." ∧
    (processText env text sys).app.correctedEnglish = sys.app.correctedEnglish ∧
    (processText env text sys).app.alternatives = sys.app.alternatives ∧
    (processText env text sys).app.culturalNotes = sys.app.culturalNotes ∧
    (processText env text sys).app =
      { sys.app with
        message := "Error: Please set your Gemini API Key in App.jsx."
        translation := .str "[API Key Missing]" } := by
  have hn : ¬ env.configured := by
    rintro ⟨h1, h2⟩
    rcases h with h | h
    · exact h2 h
    · exact h1 h
  rw [processText_of_not_configured env text sys hn]
  simp

/-- C4 at the source as committed, where `API_KEY` is the placeholder. -/
theorem processText_missing_key_witness :
    (sourceEnv.API_KEY = "" ∨ sourceEnv.API_KEY = "YOUR_GEMINI_API_KEY_HERE") ∧
    (processText sourceEnv "hello" Sys.initial).requests = Sys.initial.requests ∧
    (processText sourceEnv "hello" Sys.initial).waits = Sys.initial.waits ∧
    (processText sourceEnv "hello" Sys.initial).app.translation = .str "[API Key Missing]" :=
  have h := processText_missing_key sourceEnv "hello" Sys.initial (Or.inr rfl)
  ⟨Or.inr rfl, h.1, h.2.1, h.2.2.1⟩

/-! ## The capture session -/

theorem runEvents_nil (env : Env) (sys : Sys) : runEvents env [] sys = sys := rfl

theorem runEvents_cons (env : Env) (e : SpeechEvent) (events : List SpeechEvent) (sys : Sys) :
    runEvents env (e :: events) sys = runEvents env events (step env sys e) := rfl

theorem runEvents_append (env : Env) (first second : List SpeechEvent) (sys : Sys) :
    runEvents env (first ++ second) sys = runEvents env second (runEvents env first sys) := by
  unfold runEvents
  rw [List.foldl_append]

theorem onend_candidate (env : Env) (sys : Sys) :
    (onend env sys).app.finalTranscriptRef = sys.app.finalTranscriptRef := by
  unfold onend
  simp only
  split
  · rw [(processText_frame env _ _).2.2.1]
  · rfl

theorem onend_recording (env : Env) (sys : Sys) : (onend env sys).app.recording = false := by
  unfold onend
  simp only
  split
  · rw [(processText_frame env _ _).2.1]
  · rfl

/-- The end handler hands a non-empty candidate to `processText`. -/
theorem onend_calls_of_candidate (env : Env) (sys : Sys) (h : sys.app.finalTranscriptRef ≠ "") :
    (onend env sys).calls = sys.calls ++ [sys.app.finalTranscriptRef] := by
  unfold onend
  simp only
  rw [if_pos h, (processText_frame env _ _).1]

/-- The end handler does not invoke `processText` on an empty candidate. -/
theorem onend_of_no_candidate (env : Env) (sys : Sys) (h : sys.app.finalTranscriptRef = "") :
    onend env sys =
      { sys with app := { sys.app with
          recording := false
          message := "No speech detected or valid result captured."
          transcript := "[No transcription available]" } } := by
  unfold onend
  simp only
  rw [if_neg (by simpa using h)]

theorem step_candidate (env : Env) (sys : Sys) (e : SpeechEvent) :
    (step env sys e).app.finalTranscriptRef = candidateAfter sys.app.finalTranscriptRef [e] := by
  cases e with
  | result results =>
    simp only [step, onresult, candidateAfter]
    cases lastTranscript results <;> rfl
  | error error => rfl
  | endOfCapture => exact onend_candidate env sys

theorem candidateAfter_cons (c : String) (e : SpeechEvent) (events : List SpeechEvent) :
    candidateAfter c (e :: events) = candidateAfter (candidateAfter c [e]) events := by
  cases e <;> rfl

/-- The candidate utterance after a run is a function of the events alone. -/
theorem runEvents_candidate (env : Env) (events : List SpeechEvent) (sys : Sys) :
    (runEvents env events sys).app.finalTranscriptRef =
      candidateAfter sys.app.finalTranscriptRef events := by
  induction events generalizing sys with
  | nil => rfl
  | cons e events ih =>
    rw [runEvents_cons, ih, step_candidate, ← candidateAfter_cons]

theorem candidateAfter_filter (c : String) (events : List SpeechEvent) :
    candidateAfter c (events.filter (fun e => !e.isError)) = candidateAfter c events := by
  induction events generalizing c with
  | nil => rfl
  | cons e events ih =>
    cases e with
    | result results =>
      show candidateAfter c
        (.result results :: events.filter (fun e => !e.isError)) = _
      exact ih _
    | error error =>
      show candidateAfter c (events.filter (fun e => !e.isError)) = _
      exact ih _
    | endOfCapture =>
      show candidateAfter c
        (.endOfCapture :: events.filter (fun e => !e.isError)) = _
      exact ih _

/-- As long as no `end` event arrives, the handlers leave the effects and the four result
fields alone. -/
theorem runEvents_listening (env : Env) (events : List SpeechEvent) (sys : Sys)
    (hne : SpeechEvent.endOfCapture ∉ events) :
    (runEvents env events sys).requests = sys.requests ∧
    (runEvents env events sys).waits = sys.waits ∧
    (runEvents env events sys).calls = sys.calls ∧
    (runEvents env events sys).app.correctedEnglish = sys.app.correctedEnglish ∧
    (runEvents env events sys).app.alternatives = sys.app.alternatives ∧
    (runEvents env events sys).app.culturalNotes = sys.app.culturalNotes ∧
    (runEvents env events sys).app.translation = sys.app.translation := by
  induction events generalizing sys with
  | nil => simp [runEvents_nil]
  | cons e events ih =>
    have hne2 : SpeechEvent.endOfCapture ∉ events := fun h => hne (List.mem_cons_of_mem _ h)
    have hstep : (step env sys e).requests = sys.requests ∧
        (step env sys e).waits = sys.waits ∧
        (step env sys e).calls = sys.calls ∧
        (step env sys e).app.correctedEnglish = sys.app.correctedEnglish ∧
        (step env sys e).app.alternatives = sys.app.alternatives ∧
        (step env sys e).app.culturalNotes = sys.app.culturalNotes ∧
        (step env sys e).app.translation = sys.app.translation := by
      cases e with
      | result results =>
        simp only [step, onresult]
        cases lastTranscript results <;> simp
      | error error => simp [step, onerror]
      | endOfCapture => exact absurd (List.mem_cons_self _ _) hne
    rw [runEvents_cons]
    have := ih (step env sys e) hne2
    obtain ⟨a1, a2, a3, a4, a5, a6, a7⟩ := this
    obtain ⟨b1, b2, b3, b4, b5, b6, b7⟩ := hstep
    exact ⟨a1.trans b1, a2.trans b2, a3.trans b3, a4.trans b4, a5.trans b5, a6.trans b6,
      a7.trans b7⟩

/-- Once the recording flag is cleared, no handler sets it again. -/
theorem runEvents_recording (env : Env) (events : List SpeechEvent) (sys : Sys)
    (h : sys.app.recording = false) : (runEvents env events sys).app.recording = false := by
  induction events generalizing sys with
  | nil => exact h
  | cons e events ih =>
    rw [runEvents_cons]
    apply ih
    cases e with
    | result results =>
      simp only [step, onresult]
      cases lastTranscript results <;> simpa using h
    | error error => rfl
    | endOfCapture => exact onend_recording env sys

/-! ## C5: an error event before the end of capture -/

/-- C5, refuted as stated: in the session `result "hello"`, `error "network"`, `end` the error
event comes strictly before the end of capture, and the end handler still hands the candidate
`"hello"` to `processText`, which sends it to the remote model. -/
theorem error_does_not_suppress :
    (runEvents (sampleEnv (alwaysText fullText))
      [.result [["hello"]], .error "network", .endOfCapture]
      (startRecording true Sys.initial)).calls = ["hello"] ∧
    (runEvents (sampleEnv (alwaysText fullText))
      [.result [["hello"]], .error "network", .endOfCapture]
      (startRecording true Sys.initial)).requests = ["hello"] ∧
    (runEvents (sampleEnv (alwaysText fullText))
      [.result [["hello"]], .error "network", .endOfCapture]
      (startRecording true Sys.initial)).app.translation = .str "Fui a casa." := by
  decide

/-- C5, amended: an error event only sets the message to `Error: <code>. Try again.` and clears
the recording flag; it leaves the candidate utterance and every other cell alone. For every sequence of result and
error events, the candidate at the end of capture is the one the same sequence without its
error events gives, and the end handler hands it to `processText` exactly when it is not
empty. -/
theorem error_keeps_candidate (env : Env) (sys : Sys) (events : List SpeechEvent)
    (hne : SpeechEvent.endOfCapture ∉ events) :
    (∀ error s, onerror error s =
      { s with app := { s.app with
          message := "Error: " ++ error ++ ". Try again."
          recording := false } }) ∧
    (runEvents env events sys).app.finalTranscriptRef =
      (runEvents env (events.filter (fun e => !e.isError)) sys).app.finalTranscriptRef ∧
    ((runEvents env events sys).app.finalTranscriptRef ≠ "" →
      (runEvents env (events ++ [.endOfCapture]) sys).calls =
        sys.calls ++ [(runEvents env events sys).app.finalTranscriptRef]) ∧
    ((runEvents env events sys).app.finalTranscriptRef = "" →
      (runEvents env (events ++ [.endOfCapture]) sys).calls = sys.calls) := by
  have hl := runEvents_listening env events sys hne
  refine ⟨fun error s => rfl, ?_, ?_, ?_⟩
  · rw [runEvents_candidate, runEvents_candidate, candidateAfter_filter]
  · intro h
    rw [runEvents_append, runEvents_cons, runEvents_nil]
    show (onend env _).calls = _
    rw [onend_calls_of_candidate env _ h, hl.2.2.1]
  · intro h
    rw [runEvents_append, runEvents_cons, runEvents_nil]
    show (onend env _).calls = _
    rw [onend_of_no_candidate env _ h]
    exact hl.2.2.1

/-- The amended C5 at the session `result "hello"`, `error "network"`. -/
theorem error_keeps_candidate_witness :
    SpeechEvent.endOfCapture ∉ [SpeechEvent.result [["hello"]], SpeechEvent.error "network"] ∧
    (runEvents sourceEnv [.result [["hello"]], .error "network"]
      (startRecording true Sys.initial)).app.finalTranscriptRef ≠ "" ∧
    (runEvents sourceEnv ([.result [["hello"]], .error "network"] ++ [.endOfCapture])
      (startRecording true Sys.initial)).calls =
      (startRecording true Sys.initial).calls ++
        [(runEvents sourceEnv [.result [["hello"]], .error "network"]
          (startRecording true Sys.initial)).app.finalTranscriptRef] :=
  ⟨by decide, by decide,
    (error_keeps_candidate sourceEnv (startRecording true Sys.initial)
      [.result [["hello"]], .error "network"] (by decide)).2.2.1 (by decide)⟩

/-! ## C6: the hand-off at the end of capture -/

/-- C6: in a session started by `startRecording`, after any sequence of result events the
candidate utterance is empty when no result was recorded and is the transcript of the latest
result event otherwise; the end handler invokes `processText` exactly when the candidate is
not empty, and then once, with the candidate; with an empty candidate it invokes nothing,
issues no request, leaves the candidate empty and sets the message
`"No speech detected or valid result captured."`. No invocation has an empty argument. -/
theorem handoff_at_end (env : Env) (sys : Sys) (rs : List (List (List String))) :
    (rs = [] →
      (runEvents env (rs.map .result) (startRecording true sys)).app.finalTranscriptRef = "") ∧
    (∀ earlier r t, rs = earlier ++ [r] → lastTranscript r = some t →
      (runEvents env (rs.map .result) (startRecording true sys)).app.finalTranscriptRef = t) ∧
    ((runEvents env (rs.map .result) (startRecording true sys)).app.finalTranscriptRef ≠ "" →
      (onend env (runEvents env (rs.map .result) (startRecording true sys))).calls =
        sys.calls ++
          [(runEvents env (rs.map .result) (startRecording true sys)).app.finalTranscriptRef]) ∧
    ((runEvents env (rs.map .result) (startRecording true sys)).app.finalTranscriptRef = "" →
      (onend env (runEvents env (rs.map .result) (startRecording true sys))).calls = sys.calls ∧
      (onend env (runEvents env (rs.map .result) (startRecording true sys))).requests =
        sys.requests ∧
      (onend env (runEvents env (rs.map .result)
        (startRecording true sys))).app.finalTranscriptRef = "" ∧
      (onend env (runEvents env (rs.map .result) (startRecording true sys))).app.message =
        "No speech detected or valid result captured.") ∧
    (∃ invoked, (onend env (runEvents env (rs.map .result) (startRecording true sys))).calls =
        sys.calls ++ invoked ∧ ∀ t, t ∈ invoked → t ≠ "") := by
  have hne : SpeechEvent.endOfCapture ∉ rs.map SpeechEvent.result := by
    intro h
    obtain ⟨r, _, hr⟩ := List.mem_map.mp h
    cases hr
  have hl := runEvents_listening env (rs.map .result) (startRecording true sys) hne
  have hcalls : (startRecording true sys).calls = sys.calls := rfl
  have hreqs : (startRecording true sys).requests = sys.requests := rfl
  have hpos : (runEvents env (rs.map .result) (startRecording true sys)).app.finalTranscriptRef
      ≠ "" →
      (onend env (runEvents env (rs.map .result) (startRecording true sys))).calls =
        sys.calls ++
          [(runEvents env (rs.map .result) (startRecording true sys)).app.finalTranscriptRef] := by
    intro h
    rw [onend_calls_of_candidate env _ h, hl.2.2.1, hcalls]
  have hneg : (runEvents env (rs.map .result) (startRecording true sys)).app.finalTranscriptRef
      = "" →
      (onend env (runEvents env (rs.map .result) (startRecording true sys))).calls =
        sys.calls := by
    intro h
    rw [onend_of_no_candidate env _ h]
    exact hl.2.2.1.trans hcalls
  refine ⟨?_, ?_, hpos, ?_, ?_⟩
  · rintro rfl
    rfl
  · intro earlier r t hrs ht
    subst hrs
    rw [List.map_append, runEvents_append]
    show (onresult r _).app.finalTranscriptRef = t
    unfold onresult
    rw [ht]
  · intro h
    refine ⟨hneg h, ?_, ?_, ?_⟩
    · rw [onend_of_no_candidate env _ h]
      exact hl.1.trans hreqs
    · rw [onend_of_no_candidate env _ h]
      exact h
    · rw [onend_of_no_candidate env _ h]
  · by_cases h : (runEvents env (rs.map .result)
        (startRecording true sys)).app.finalTranscriptRef = ""
    · exact ⟨[], by rw [hneg h, List.append_nil], fun t ht => absurd ht (List.not_mem_nil t)⟩
    · refine ⟨_, hpos h, fun t ht => ?_⟩
      rw [List.mem_singleton] at ht
      rw [ht]
      exact h

/-- C6 at two sessions: results `"hello"` then `"hello world"` hand over `"hello world"`; no
result hands over nothing. -/
theorem handoff_at_end_witness :
    (runEvents sourceEnv ([[["hello"]], [["hello world"]]].map .result)
      (startRecording true Sys.initial)).app.finalTranscriptRef = "hello world" ∧
    (onend sourceEnv (runEvents sourceEnv ([[["hello"]], [["hello world"]]].map .result)
      (startRecording true Sys.initial))).calls =
      Sys.initial.calls ++
        [(runEvents sourceEnv ([[["hello"]], [["hello world"]]].map .result)
          (startRecording true Sys.initial)).app.finalTranscriptRef] ∧
    (onend sourceEnv (runEvents sourceEnv (([] : List (List (List String))).map .result)
      (startRecording true Sys.initial))).calls = Sys.initial.calls :=
  ⟨(handoff_at_end sourceEnv Sys.initial [[["hello"]], [["hello world"]]]).2.1
      [[["hello"]]] [["hello world"]] "hello world" (by decide) (by decide),
    (handoff_at_end sourceEnv Sys.initial [[["hello"]], [["hello world"]]]).2.2.1 (by decide),
    ((handoff_at_end sourceEnv Sys.initial []).2.2.2.1 (by decide)).1⟩

/-! ## C7: events after the end of capture -/

/-- C7, refuted as stated: after the end-of-capture event of the session `result "first"`,
`end`, a further result event still overwrites the candidate utterance and the transcript, and
a further end event invokes `processText` a second time. -/
theorem events_after_end_processed :
    (step (sampleEnv (alwaysText fullText))
      (runEvents (sampleEnv (alwaysText fullText)) [.result [["first"]], .endOfCapture]
        (startRecording true Sys.initial))
      (.result [["second"]])).app ≠
      (runEvents (sampleEnv (alwaysText fullText)) [.result [["first"]], .endOfCapture]
        (startRecording true Sys.initial)).app ∧
    (step (sampleEnv (alwaysText fullText))
      (runEvents (sampleEnv (alwaysText fullText)) [.result [["first"]], .endOfCapture]
        (startRecording true Sys.initial))
      (.result [["second"]])).app.finalTranscriptRef = "second" ∧
    (runEvents (sampleEnv (alwaysText fullText)) [.result [["first"]], .endOfCapture]
      (startRecording true Sys.initial)).calls = ["first"] ∧
    (step (sampleEnv (alwaysText fullText))
      (runEvents (sampleEnv (alwaysText fullText)) [.result [["first"]], .endOfCapture]
        (startRecording true Sys.initial))
      .endOfCapture).calls = ["first", "first"] := by
  decide

/-- C7, amended: the handlers carry no status guard. In every state, also after the end of
capture, a result event that carries a transcript overwrites the candidate utterance and the
transcript, and an end event hands a non-empty candidate to `processText`. What holds is that
error and end events leave the candidate utterance unchanged, and that once the end handler has
cleared the recording flag no later result, error or end event sets it again: the session
never returns from Ended to Listening. -/
theorem handlers_unguarded (env : Env) (sys : Sys) :
    (∀ events, (runEvents env events (onend env sys)).app.recording = false) ∧
    (∀ s error,
      (step env s (.error error)).app.finalTranscriptRef = s.app.finalTranscriptRef) ∧
    (∀ s, (step env s .endOfCapture).app.finalTranscriptRef = s.app.finalTranscriptRef) ∧
    (∀ s results t, lastTranscript results = some t →
      (step env s (.result results)).app.finalTranscriptRef = t ∧
      (step env s (.result results)).app.transcript = t) ∧
    (∀ s, s.app.finalTranscriptRef ≠ "" →
      (step env s .endOfCapture).calls = s.calls ++ [s.app.finalTranscriptRef]) := by
  refine ⟨?_, ?_, ?_, ?_, ?_⟩
  · intro events
    exact runEvents_recording env events (onend env sys) (onend_recording env sys)
  · intro s error
    rfl
  · intro s
    exact onend_candidate env s
  · intro s results t ht
    simp [step, onresult, ht]
  · intro s h
    exact onend_calls_of_candidate env s h

/-- The amended C7 at the session `result "first"`, `end`, followed by `result "second"`,
`error "aborted"`, `end`. -/
theorem handlers_unguarded_witness :
    (runEvents sourceEnv [.result [["second"]], .error "aborted", .endOfCapture]
      (onend sourceEnv (runEvents sourceEnv [.result [["first"]]]
        (startRecording true Sys.initial)))).app.recording = false ∧
    (step sourceEnv (startRecording true Sys.initial) (.result [["first"]])).app.finalTranscriptRef
      = "first" :=
  ⟨(handlers_unguarded sourceEnv (runEvents sourceEnv [.result [["first"]]]
      (startRecording true Sys.initial))).1
      [.result [["second"]], .error "aborted", .endOfCapture],
    ((handlers_unguarded sourceEnv Sys.initial).2.2.2.1 (startRecording true Sys.initial)
      [["first"]] "first" (by decide)).1⟩

/-! ## C8: result fields after a terminal failure -/

/-- C8, refuted as stated: `processText` itself clears nothing. Invoked from the state left by
a successful run, a call that fails three times sets translation to `"[AI Error]"` and leaves
`correctedEnglish`, `alternatives` and `culturalNotes` at the values of the earlier run. -/
theorem stale_fields_after_failure :
    (processText (sampleEnv fullThenDown) "hello" Sys.initial).app.correctedEnglish =
      .str "I went home." ∧
    (processText (sampleEnv fullThenDown) "again"
      (processText (sampleEnv fullThenDown) "hello" Sys.initial)).requests =
      ["hello", "again", "again", "again"] ∧
    (processText (sampleEnv fullThenDown) "again"
      (processText (sampleEnv fullThenDown) "hello" Sys.initial)).app.translation =
      .str "[AI Error]" ∧
    (processText (sampleEnv fullThenDown) "again"
      (processText (sampleEnv fullThenDown) "hello" Sys.initial)).app.correctedEnglish =
      .str "I went home." ∧
    (processText (sampleEnv fullThenDown) "again"
      (processText (sampleEnv fullThenDown) "hello" Sys.initial)).app.alternatives =
      .arr (.cons (.str "I returned home.") (.cons (.str "I got home.") .nil)) ∧
    (processText (sampleEnv fullThenDown) "again"
      (processText (sampleEnv fullThenDown) "hello" Sys.initial)).app.culturalNotes =
      .str "Neutral." := by
  decide

/-- Run with no other handler in between, the stretches of the loop give what `retryLoop`
gives. -/
theorem complete_loopHead (env : Env) (text : String) (fuel attempt : Nat) (sys : Sys)
    (h : MAX_RETRIES - attempt ≤ fuel) :
    complete env text (2 * fuel) (loopHead text attempt sys) =
      retryLoop env text fuel attempt sys := by
  induction fuel generalizing attempt sys with
  | zero =>
    have hn : ¬ attempt < MAX_RETRIES := by omega
    simp [loopHead, hn, complete, retryLoop]
  | succ fuel ih =>
    by_cases hlt : attempt < MAX_RETRIES
    · have h2 : 2 * (fuel + 1) = 2 * fuel + 1 + 1 := by ring
      rw [h2]
      simp only [loopHead, if_pos hlt, complete, resume, retryLoop]
      cases parseAttempt env.JSON_parse (env.fetch sys.requests.length) with
      | some r => simp [complete]
      | none =>
        simp only
        by_cases hge : attempt + 1 ≥ MAX_RETRIES
        · simp only [if_pos hge, complete]
        · simp only [if_neg hge, complete, resume]
          exact ih (attempt + 1) _ (by omega)
    · simp [loopHead, hlt, complete, retryLoop]

/-- Run with no other handler in between, the stretches of a call give what `processText`
gives. -/
theorem complete_processTextStart (env : Env) (text : String) (sys : Sys) :
    complete env text (2 * MAX_RETRIES) (processTextStart env text sys) =
      processText env text sys := by
  unfold processTextStart processText
  split
  · simp [complete]
  · exact complete_loopHead env text MAX_RETRIES 0 _ (by omega)

/-- The handler `onend` is its first stretch followed by the rest of the call of
`processText`, with no other handler in between. -/
theorem onend_eq_complete (env : Env) (sys : Sys) :
    onend env sys =
      match onendStart env sys with
      | (out, none) => out
      | (out, some (text, p)) => complete env text (2 * MAX_RETRIES) (out, some p) := by
  unfold onend onendStart
  simp only
  split
  · rw [← complete_processTextStart]
    cases processTextStart env sys.app.finalTranscriptRef
      { sys with
        app := { sys.app with recording := false, message := "Processing..." }
        calls := sys.calls ++ [sys.app.finalTranscriptRef] } with
    | mk out p =>
      cases p with
      | none => simp [complete]
      | some p => rfl
  · rfl

/-- A second session begun while the call of the first one is suspended: when the call of the
second session ends in terminal failure, the fields hold the answer to the first session. -/
theorem late_answer_in_fresh_session :
    (World.run (sampleEnv fullThenDown) (lateAnswer ++ [.settle 0])
      World.initial).pending = [] ∧
    (World.run (sampleEnv fullThenDown) (lateAnswer ++ [.settle 0])
      World.initial).sys.calls = ["hello", "again"] ∧
    (World.run (sampleEnv fullThenDown) (lateAnswer ++ [.settle 0])
      World.initial).sys.requests = ["hello", "again", "again", "again"] ∧
    (World.run (sampleEnv fullThenDown) (lateAnswer ++ [.settle 0])
      World.initial).sys.app.translation = .str "[AI Error]" ∧
    (World.run (sampleEnv fullThenDown) (lateAnswer ++ [.settle 0])
      World.initial).sys.app.correctedEnglish = .str "I went home." ∧
    (World.run (sampleEnv fullThenDown) (lateAnswer ++ [.settle 0])
      World.initial).sys.app.culturalNotes = .str "Neutral." := by
  decide

/-- C8, amended: `processText` clears nothing, and a failing attempt writes no result field but
translation. In whatever state the suspended call finds the component: a failed attempt that
is not the last changes no cell (it only schedules the back-off wait); the end of a wait
changes no cell (it only issues the next request); the failed attempt number `MAX_RETRIES`
sets translation to `"[AI Error]"` and the message to the retry-failure message and leaves
every other cell, `correctedEnglish`, `alternatives` and `culturalNotes` among them, as it
finds it. So a call that no other handler interleaves with and that ends in terminal failure
leaves these three fields as they were when it was invoked. The prior results are cleared by
`startRecording`, at the start of a session, which sets the four fields to `""`, `""`, `[]`
and `""`. -/
theorem terminal_failure_writes (env : Env) (text : String) :
    (∀ request attempt s, env.attempt request = none → attempt + 1 < MAX_RETRIES →
      (resume env text (.fetching request attempt) s).1.app = s.app ∧
      (resume env text (.fetching request attempt) s).2 = some (.waiting (attempt + 1))) ∧
    (∀ attempt s, (resume env text (.waiting attempt) s).1.app = s.app) ∧
    (∀ request attempt s, env.attempt request = none → MAX_RETRIES ≤ attempt + 1 →
      resume env text (.fetching request attempt) s =
        ({ s with app := { s.app with
            translation := .str "[AI Error]"
            message := "AI Processing failed after multiple retries. Check console." } },
          none)) ∧
    (∀ s, env.configured →
      (∀ i, i < MAX_RETRIES → env.attempt (s.requests.length + i) = none) →
      complete env text (2 * MAX_RETRIES) (processTextStart env text s) =
        processText env text s ∧
      (processText env text s).app =
        { s.app with
          translation := .str "[AI Error]"
          message := "AI Processing failed after multiple retries. Check console." }) ∧
    (∀ s, (startRecording true s).app.correctedEnglish = .str "" ∧
      (startRecording true s).app.translation = .str "" ∧
      (startRecording true s).app.alternatives = .arr .nil ∧
      (startRecording true s).app.culturalNotes = .str "") := by
  refine ⟨?_, ?_, ?_, ?_, ?_⟩
  · intro request attempt s hfail hlt
    unfold Env.attempt at hfail
    have hge : ¬ attempt + 1 ≥ MAX_RETRIES := by omega
    simp [resume, hfail, hge]
  · intro attempt s
    unfold resume loopHead
    simp only
    split <;> rfl
  · intro request attempt s hfail hge
    unfold Env.attempt at hfail
    have hge2 : attempt + 1 ≥ MAX_RETRIES := hge
    simp [resume, hfail, hge2, giveUp]
  · intro s hc hfail
    refine ⟨complete_processTextStart env text s, ?_⟩
    rw [processText_exhausted env text s hc hfail]
    simp [giveUp, processing]
  · intro s
    exact ⟨rfl, rfl, rfl, rfl⟩

/-- The amended C8 at the last stretch of the second call of `lateAnswer`: the third attempt
fails in a state that holds the answer to the first session, and leaves it there. -/
theorem terminal_failure_writes_witness :
    (World.run (sampleEnv fullThenDown) lateAnswer World.initial).pending =
      [("again", .fetching 3 2)] ∧
    (World.run (sampleEnv fullThenDown) lateAnswer World.initial).sys.app.correctedEnglish =
      .str "I went home." ∧
    (sampleEnv fullThenDown).attempt 3 = none ∧
    MAX_RETRIES ≤ 2 + 1 ∧
    resume (sampleEnv fullThenDown) "again" (.fetching 3 2)
        (World.run (sampleEnv fullThenDown) lateAnswer World.initial).sys =
      ({ (World.run (sampleEnv fullThenDown) lateAnswer World.initial).sys with
          app := { (World.run (sampleEnv fullThenDown) lateAnswer World.initial).sys.app with
            translation := .str "[AI Error]"
            message := "AI Processing failed after multiple retries. Check console." } },
        none) :=
  ⟨by decide, by decide, by decide, by decide,
    (terminal_failure_writes (sampleEnv fullThenDown) "again").2.2.1 3 2
      (World.run (sampleEnv fullThenDown) lateAnswer World.initial).sys
      (by decide) (by decide)⟩

/-! ## Binary64 rounding -/

theorem roundHalfEven_le (y : ℚ) (n : ℤ) (h : y ≤ n) : roundHalfEven y ≤ n := by
  have hf : ⌊y⌋ ≤ n :=
    Int.lt_add_one_iff.mp (Int.floor_lt.mpr (by push_cast; linarith))
  unfold roundHalfEven
  split
  · exact hf
  · rename_i h1
    have hlt : ⌊y⌋ < n := by
      rcases lt_or_eq_of_le hf with h2 | h2
      · exact h2
      · exfalso
        apply h1
        have : (⌊y⌋ : ℚ) ≤ y := Int.floor_le y
        rw [h2] at this ⊢
        have : y = n := le_antisymm h this
        rw [this]; norm_num
    split
    · omega
    · split
      · exact hf
      · omega

theorem le_roundHalfEven (y : ℚ) (n : ℤ) (h : (n : ℚ) ≤ y) : n ≤ roundHalfEven y := by
  have hf : n ≤ ⌊y⌋ := Int.le_floor.mpr h
  unfold roundHalfEven
  split
  · exact hf
  · split
    · omega
    · split
      · exact hf
      · omega

theorem roundHalfEven_eq (y : ℚ) (m : ℤ) (hlo : (m : ℚ) - 1 / 2 < y) (hhi : y < m + 1 / 2) :
    roundHalfEven y = m := by
  rcases le_or_lt (m : ℚ) y with h | h
  · have hf : ⌊y⌋ = m := Int.floor_eq_iff.mpr ⟨h, by linarith⟩
    unfold roundHalfEven
    rw [hf, if_pos (by linarith)]
  · have hf : ⌊y⌋ = m - 1 :=
      Int.floor_eq_iff.mpr ⟨by push_cast; linarith, by push_cast; linarith⟩
    unfold roundHalfEven
    rw [hf, if_neg (by push_cast; linarith), if_pos (by push_cast; linarith)]
    ring

/-- Below `2 ^ 53` the spacing of the binary64 numbers is one over a power of two, so every
integer is a multiple of it. -/
theorem quantum_eq (x : ℚ) (h0 : 0 ≤ x) (h : x < 2 ^ 53) :
    ∃ k : ℕ, quantum x = ((2 : ℚ) ^ k)⁻¹ := by
  have he : Int.log 2 |x| ≤ 52 := by
    rw [abs_of_nonneg h0]
    rcases eq_or_lt_of_le h0 with h1 | h1
    · rw [← h1, Int.log_zero_right]
      norm_num
    · have : Int.log 2 x < 53 := (Int.lt_zpow_iff_log_lt (by norm_num) h1).mp (by
        norm_num
        exact_mod_cast h)
      omega
  have hz : max (Int.log 2 |x| - 52) (-1074) ≤ 0 := by omega
  obtain ⟨k, hk⟩ : ∃ k : ℕ, max (Int.log 2 |x| - 52) (-1074) = -(k : ℤ) :=
    ⟨(-(max (Int.log 2 |x| - 52) (-1074))).toNat, by
      rw [Int.toNat_of_nonneg (by omega)]
      ring⟩
  refine ⟨k, ?_⟩
  unfold quantum
  rw [hk, zpow_neg, zpow_natCast]

/-- Rounding to binary64 does not cross an integer from below. -/
theorem toDouble_le (x : ℚ) (n : ℤ) (h0 : 0 ≤ x) (h : x < 2 ^ 53) (hn : x ≤ n) :
    toDouble x ≤ n := by
  obtain ⟨k, hk⟩ := quantum_eq x h0 h
  unfold toDouble
  rw [hk]
  have hpos : (0 : ℚ) < 2 ^ k := by positivity
  have h1 : x / ((2 : ℚ) ^ k)⁻¹ ≤ ((n * 2 ^ k : ℤ) : ℚ) := by
    rw [div_inv_eq_mul]
    push_cast
    exact mul_le_mul_of_nonneg_right hn hpos.le
  have h2 := roundHalfEven_le _ _ h1
  have h3 : (roundHalfEven (x / ((2 : ℚ) ^ k)⁻¹) : ℚ) ≤ ((n * 2 ^ k : ℤ) : ℚ) := by
    exact_mod_cast h2
  calc (roundHalfEven (x / ((2 : ℚ) ^ k)⁻¹) : ℚ) * ((2 : ℚ) ^ k)⁻¹
      ≤ ((n * 2 ^ k : ℤ) : ℚ) * ((2 : ℚ) ^ k)⁻¹ :=
        mul_le_mul_of_nonneg_right h3 (inv_nonneg.mpr hpos.le)
    _ = n := by
        push_cast
        field_simp

/-- Rounding to binary64 does not cross an integer from above. -/
theorem le_toDouble (x : ℚ) (n : ℤ) (h0 : 0 ≤ x) (h : x < 2 ^ 53) (hn : (n : ℚ) ≤ x) :
    (n : ℚ) ≤ toDouble x := by
  obtain ⟨k, hk⟩ := quantum_eq x h0 h
  unfold toDouble
  rw [hk]
  have hpos : (0 : ℚ) < 2 ^ k := by positivity
  have h1 : ((n * 2 ^ k : ℤ) : ℚ) ≤ x / ((2 : ℚ) ^ k)⁻¹ := by
    rw [div_inv_eq_mul]
    push_cast
    exact mul_le_mul_of_nonneg_right hn hpos.le
  have h2 := le_roundHalfEven _ _ h1
  have h3 : ((n * 2 ^ k : ℤ) : ℚ) ≤ (roundHalfEven (x / ((2 : ℚ) ^ k)⁻¹) : ℚ) := by
    exact_mod_cast h2
  calc (n : ℚ) = ((n * 2 ^ k : ℤ) : ℚ) * ((2 : ℚ) ^ k)⁻¹ := by
        push_cast
        field_simp
    _ ≤ (roundHalfEven (x / ((2 : ℚ) ^ k)⁻¹) : ℚ) * ((2 : ℚ) ^ k)⁻¹ :=
        mul_le_mul_of_nonneg_right h3 (inv_nonneg.mpr hpos.le)

/-- The binary64 value of a positive number, from its binade and its rounded significand. -/
theorem toDouble_eq (x : ℚ) (e m : ℤ) (hpos : 0 < x) (h1 : (2 : ℚ) ^ e ≤ x)
    (h2 : x < (2 : ℚ) ^ (e + 1)) (he : -1022 ≤ e)
    (hlo : (m : ℚ) - 1 / 2 < x / (2 : ℚ) ^ (e - 52))
    (hhi : x / (2 : ℚ) ^ (e - 52) < m + 1 / 2) :
    toDouble x = m * (2 : ℚ) ^ (e - 52) := by
  have hlog : Int.log 2 |x| = e := by
    rw [abs_of_pos hpos]
    have a : e ≤ Int.log 2 x :=
      (Int.zpow_le_iff_le_log (by norm_num) hpos).mp (by exact_mod_cast h1)
    have b : Int.log 2 x < e + 1 :=
      (Int.lt_zpow_iff_log_lt (by norm_num) hpos).mp (by exact_mod_cast h2)
    omega
  have hq : quantum x = (2 : ℚ) ^ (e - 52) := by
    unfold quantum
    rw [hlog, max_eq_left (by omega)]
  unfold toDouble
  rw [hq, roundHalfEven_eq _ m hlo hhi]

/-- The delay of line 196 lies between `2^attempt * 1000` and `2^attempt * 1000 + 500`, both
ends included. -/
theorem backoffDelay_bounds (attempt : Nat) (r : ℚ) (ha : attempt ≤ 40)
    (h0 : 0 ≤ r) (h1 : r < 1) :
    (2 : ℚ) ^ attempt * 1000 ≤ backoffDelay attempt r ∧
    backoffDelay attempt r ≤ (2 : ℚ) ^ attempt * 1000 + 500 := by
  have hpow : (2 : ℚ) ^ attempt ≤ 2 ^ 40 := pow_le_pow_right₀ (by norm_num) ha
  have hpos : (0 : ℚ) < 2 ^ attempt := by positivity
  have hbase : toDouble ((2 : ℚ) ^ attempt * 1000) = (2 : ℚ) ^ attempt * 1000 := by
    have hc : (2 : ℚ) ^ attempt * 1000 = ((2 ^ attempt * 1000 : ℤ) : ℚ) := by push_cast; ring
    have hlt : (2 : ℚ) ^ attempt * 1000 < 2 ^ 53 := by
      calc (2 : ℚ) ^ attempt * 1000 ≤ 2 ^ 40 * 1000 := by linarith
        _ < 2 ^ 53 := by norm_num
    apply le_antisymm
    · rw [hc]
      exact toDouble_le _ _ (by rw [← hc]; positivity) (by rw [← hc]; exact hlt) le_rfl
    · rw [hc]
      exact le_toDouble _ _ (by rw [← hc]; positivity) (by rw [← hc]; exact hlt) le_rfl
  have hj0 : (0 : ℚ) ≤ toDouble (r * 500) := by
    have := le_toDouble (r * 500) 0 (by linarith) (by norm_num; linarith)
      (by push_cast; linarith)
    exact_mod_cast this
  have hj1 : toDouble (r * 500) ≤ 500 := by
    have := toDouble_le (r * 500) 500 (by linarith) (by norm_num; linarith)
      (by push_cast; linarith)
    exact_mod_cast this
  unfold backoffDelay
  rw [hbase]
  have hs0 : (0 : ℚ) ≤ 2 ^ attempt * 1000 + toDouble (r * 500) := by positivity
  have hs1 : (2 : ℚ) ^ attempt * 1000 + toDouble (r * 500) < 2 ^ 53 := by
    calc (2 : ℚ) ^ attempt * 1000 + toDouble (r * 500) ≤ 2 ^ 40 * 1000 + 500 := by linarith
      _ < 2 ^ 53 := by norm_num
  constructor
  · have := le_toDouble ((2 : ℚ) ^ attempt * 1000 + toDouble (r * 500))
      (2 ^ attempt * 1000) hs0 hs1 (by push_cast; linarith)
    push_cast at this
    exact this
  · have := toDouble_le ((2 : ℚ) ^ attempt * 1000 + toDouble (r * 500))
      (2 ^ attempt * 1000 + 500) hs0 hs1 (by push_cast; linarith)
    push_cast at this
    exact this

/-- For `Math.random() = 1 - 2^-52` the jitter rounds to `500 - 2^-43`. -/
theorem jitter_near_one :
    toDouble ((1 - 1 / 2 ^ 52) * 500) = 8796093022207998 * (2 : ℚ) ^ ((8 : ℤ) - 52) :=
  toDouble_eq _ 8 8796093022207998 (by norm_num) (by norm_num) (by norm_num) (by norm_num)
    (by norm_num) (by norm_num)

/-- For `Math.random() = 1 - 2^-52` the delay after the first failure rounds to `2500`. -/
theorem backoffDelay_one_near_one : backoffDelay 1 (1 - 1 / 2 ^ 52) = 2500 := by
  have hb : toDouble ((2 : ℚ) ^ 1 * 1000) = 2000 := by
    have := toDouble_eq ((2 : ℚ) ^ 1 * 1000) 10 (1000 * 2 ^ 43) (by norm_num) (by norm_num)
      (by norm_num) (by norm_num) (by norm_num) (by norm_num)
    rw [this]
    norm_num
  unfold backoffDelay
  rw [jitter_near_one, hb]
  have := toDouble_eq (2000 + 8796093022207998 * (2 : ℚ) ^ ((8 : ℤ) - 52)) 11 (2500 * 2 ^ 41)
    (by norm_num) (by norm_num) (by norm_num) (by norm_num) (by norm_num) (by norm_num)
  rw [this]
  norm_num

/-- For `Math.random() = 1 - 2^-52` the delay after the second failure rounds to `4500`. -/
theorem backoffDelay_two_near_one : backoffDelay 2 (1 - 1 / 2 ^ 52) = 4500 := by
  have hb : toDouble ((2 : ℚ) ^ 2 * 1000) = 4000 := by
    have := toDouble_eq ((2 : ℚ) ^ 2 * 1000) 11 (1000 * 2 ^ 43) (by norm_num) (by norm_num)
      (by norm_num) (by norm_num) (by norm_num) (by norm_num)
    rw [this]
    norm_num
  unfold backoffDelay
  rw [jitter_near_one, hb]
  have := toDouble_eq (4000 + 8796093022207998 * (2 : ℚ) ^ ((8 : ℤ) - 52)) 12 (4500 * 2 ^ 40)
    (by norm_num) (by norm_num) (by norm_num) (by norm_num) (by norm_num) (by norm_num)
  rw [this]
  norm_num

/-! ## C9: back-off waits -/

/-- The waits of a call whose first `k` requests fail and whose next request, if `k` is below
`MAX_RETRIES`, succeeds. -/
theorem processText_waits (env : Env) (text : String) (sys : Sys) (k : Nat)
    (hc : env.configured)
    (hfail : ∀ i, i < k → env.attempt (sys.requests.length + i) = none)
    (hsucc : k < MAX_RETRIES → (env.attempt (sys.requests.length + k)).isSome = true) :
    (processText env text sys).waits =
      sys.waits ++ backoffWaits env sys.waits.length (min k (MAX_RETRIES - 1)) := by
  by_cases hk : k < MAX_RETRIES
  · obtain ⟨r, hr⟩ := Option.isSome_iff_exists.mp (hsucc hk)
    rw [processText_success env text sys k r hc hk hfail hr]
    have : min k (MAX_RETRIES - 1) = k := by
      unfold MAX_RETRIES at hk ⊢
      omega
    rw [this]
  · rw [processText_exhausted env text sys hc (fun i hi => hfail i (by omega))]
    have : min k (MAX_RETRIES - 1) = MAX_RETRIES - 1 := by
      unfold MAX_RETRIES at hk ⊢
      omega
    rw [this]

/-- C9, refuted as stated: line 196 is evaluated in binary64. With `Math.random() = 1 - 2^-52`
the jitter `Math.random() * 500` is below 500, yet after two failures followed by a success
the two waits are exactly `2500` and `4500` ms: the sums round up to the excluded upper ends of
`[2000, 2500)` and `[4000, 4500)`. -/
theorem backoff_wait_reaches_upper_end :
    (nearOneEnv twoErrorsThenFull).configured ∧
    (0 ≤ (nearOneEnv twoErrorsThenFull).random 0 ∧
      (nearOneEnv twoErrorsThenFull).random 0 < 1) ∧
    (0 ≤ (nearOneEnv twoErrorsThenFull).random 0 * 500 ∧
      (nearOneEnv twoErrorsThenFull).random 0 * 500 < 500) ∧
    (processText (nearOneEnv twoErrorsThenFull) "i go home" Sys.initial).waits =
      [2500, 4500] ∧
    ¬ ((2500 : ℚ) < 2 ^ 1 * 1000 + 500) ∧
    ¬ ((4500 : ℚ) < 2 ^ 2 * 1000 + 500) := by
  refine ⟨by decide, by norm_num [nearOneEnv], by norm_num [nearOneEnv], ?_, by norm_num,
    by norm_num⟩
  rw [processText_success (nearOneEnv twoErrorsThenFull) "i go home" Sys.initial 2
    { correctedEnglish := .str "I went home."
      alternatives := .arr (.cons (.str "I returned home.") (.cons (.str "I got home.") .nil))
      culturalNotes := .str "Neutral."
      translation := .str "Fui a casa." }
    (by decide) (by decide) (by decide) (by decide)]
  have h1 := backoffDelay_one_near_one
  have h2 := backoffDelay_two_near_one
  simp only [one_div] at h1 h2
  simp [backoffWaits, List.range_succ, nearOneEnv, Sys.initial, h1, h2]

/-- C9, amended: with `Math.random()` in `[0, 1)` and line 196 evaluated in binary64, a call
whose first `k` requests fail (followed by a success when `k` is below `MAX_RETRIES`) performs
exactly `min k (MAX_RETRIES - 1)` waits: one after each failed attempt that is followed by
another attempt, none after a success and none after the final failed attempt. The wait
before attempt `n` (attempts counted from 0) is the value line 196 computes from `n` and the
next `Math.random()` value, and lies in the closed interval from `2^n * 1000` to
`2^n * 1000 + 500`. -/
theorem backoff_waits (env : Env) (text : String) (sys : Sys) (k : Nat)
    (hc : env.configured)
    (hrand : ∀ i, 0 ≤ env.random i ∧ env.random i < 1)
    (hfail : ∀ i, i < k → env.attempt (sys.requests.length + i) = none)
    (hsucc : k < MAX_RETRIES → (env.attempt (sys.requests.length + k)).isSome = true) :
    ∃ waits : List ℚ,
      (processText env text sys).waits = sys.waits ++ waits ∧
      waits.length = min k (MAX_RETRIES - 1) ∧
      ∀ n, 1 ≤ n → n ≤ min k (MAX_RETRIES - 1) →
        ∃ d : ℚ, waits[n - 1]? = some d ∧
          d = backoffDelay n (env.random (sys.waits.length + (n - 1))) ∧
          (2 : ℚ) ^ n * 1000 ≤ d ∧ d ≤ (2 : ℚ) ^ n * 1000 + 500 := by
  refine ⟨backoffWaits env sys.waits.length (min k (MAX_RETRIES - 1)),
    processText_waits env text sys k hc hfail hsucc, by simp [backoffWaits], ?_⟩
  intro n h1 hn
  obtain ⟨r0, r1⟩ := hrand (sys.waits.length + (n - 1))
  have hn40 : n ≤ 40 := by
    unfold MAX_RETRIES at hn
    omega
  have hb := backoffDelay_bounds n (env.random (sys.waits.length + (n - 1))) hn40 r0 r1
  refine ⟨backoffDelay n (env.random (sys.waits.length + (n - 1))), ?_, rfl, hb.1, hb.2⟩
  have hlt : n - 1 < min k (MAX_RETRIES - 1) := by omega
  have hn1 : n - 1 + 1 = n := by omega
  simp [backoffWaits, List.getElem?_range hlt, hn1]

/-- The amended C9 at the scenario "HTTP 500 twice, then a full answer", with `Math.random()`
giving `1/4`: two waits. -/
theorem backoff_waits_witness :
    (sampleEnv twoErrorsThenFull).configured ∧
    (∀ i, 0 ≤ (sampleEnv twoErrorsThenFull).random i ∧
      (sampleEnv twoErrorsThenFull).random i < 1) ∧
    ∃ waits : List ℚ,
      (processText (sampleEnv twoErrorsThenFull) "i go home" Sys.initial).waits =
        Sys.initial.waits ++ waits ∧
      waits.length = min 2 (MAX_RETRIES - 1) ∧
      ∀ n, 1 ≤ n → n ≤ min 2 (MAX_RETRIES - 1) →
        ∃ d : ℚ, waits[n - 1]? = some d ∧
          d = backoffDelay n
            ((sampleEnv twoErrorsThenFull).random (Sys.initial.waits.length + (n - 1))) ∧
          (2 : ℚ) ^ n * 1000 ≤ d ∧ d ≤ (2 : ℚ) ^ n * 1000 + 500 :=
  ⟨by decide, fun _ => by simp [sampleEnv]; norm_num,
    backoff_waits (sampleEnv twoErrorsThenFull) "i go home" Sys.initial 2 (by decide)
      (fun _ => by simp [sampleEnv]; norm_num) (by decide) (by decide)⟩

/-! ## C10: changing the target language -/

/-- C10, refuted as stated: the language-change handler does not clear the status message, it
sets it to a notice. In the idle initial state, choosing `es` leaves the message
`"Language set to Spanish. Please record again."`. -/
theorem language_change_sets_message :
    Sys.initial.app.recording = false ∧
    "es" ∈ languageCodes ∧
    (onLanguageChange "es" Sys.initial).app.message =
      "Language set to Spanish. Please record again." ∧
    (onLanguageChange "es" Sys.initial).app.message ≠ "" := by
  decide

/-- C10, amended: for every state and every target-language code in es, fr, de, hi, ja, ko,
the language-change handler sets language to the chosen code, clears the four result fields
(translation, correctedEnglish and culturalNotes empty, alternatives the empty list) and sets
the status message to `Language set to <name>. Please record again.`, where `<name>` is the
display name of the code in `languageNames`. -/
theorem language_change_clears_results (sys : Sys) (code : String)
    (h : code ∈ languageCodes) :
    (onLanguageChange code sys).app.language = code ∧
    (onLanguageChange code sys).app.translation = .str "" ∧
    (onLanguageChange code sys).app.correctedEnglish = .str "" ∧
    (onLanguageChange code sys).app.culturalNotes = .str "" ∧
    (onLanguageChange code sys).app.alternatives = .arr .nil ∧
    ∃ name, languageNames code = some name ∧
      (onLanguageChange code sys).app.message =
        "Language set to " ++ name ++ ". Please record again." := by
  refine ⟨rfl, rfl, rfl, rfl, rfl, ?_⟩
  have hname : ∃ name, languageNames code = some name := by
    simp only [languageCodes, List.mem_cons, List.mem_singleton, List.not_mem_nil,
      or_false] at h
    rcases h with rfl | rfl | rfl | rfl | rfl | rfl
    · exact ⟨"Spanish", by decide⟩
    · exact ⟨"French", by decide⟩
    · exact ⟨"German", by decide⟩
    · exact ⟨"Hindi", by decide⟩
    · exact ⟨"Japanese", by decide⟩
    · exact ⟨"Korean", by decide⟩
  obtain ⟨name, hn⟩ := hname
  refine ⟨name, hn, ?_⟩
  show "Language set to " ++ (languageNames code).getD "undefined" ++ ". Please record again."
    = _
  rw [hn]
  rfl

/-- The amended C10 at the code `ja`, chosen in the state left by a successful run. -/
theorem language_change_clears_results_witness :
    "ja" ∈ languageCodes ∧
    (onLanguageChange "ja"
      (processText (sampleEnv fullThenDown) "hello" Sys.initial)).app.language = "ja" ∧
    (onLanguageChange "ja"
      (processText (sampleEnv fullThenDown) "hello" Sys.initial)).app.translation = .str "" ∧
    ∃ name, languageNames "ja" = some name ∧
      (onLanguageChange "ja"
        (processText (sampleEnv fullThenDown) "hello" Sys.initial)).app.message =
        "Language set to " ++ name ++ ". Please record again." :=
  have h := language_change_clears_results
    (processText (sampleEnv fullThenDown) "hello" Sys.initial) "ja" (by decide)
  ⟨by decide, h.1, h.2.1, h.2.2.2.2.2⟩

end Polyglot
